import Mathlib

/-!
Shallow embedding of `src/ndt5/protocol/messager.go` (package `protocol` of
ndt-server): the `Encoding` enum and its `Messager` factory, the two
`Messager` variants (`jsonMessager`, `tlvMessager`), and the reflective
result walker `SendMetrics`.

Modelling conventions:
* Go `[]byte` and `string` payloads are both modelled as `String`
  (`string(contents)` / `[]byte(s)` conversions are the identity on content).
* The external framing codecs `SendJSONMessage` / `WriteTLVMessage` are out
  of scope for this package; a send operation is embedded as the
  `CodecCall` value describing exactly which codec the method invokes and
  with which arguments.
* `int64` values are modelled as `Int` (no arithmetic is performed on them,
  only decimal formatting, so overflow is irrelevant).
-/

namespace NDT5

/-- Opaque transport handle; the package never inspects it. -/
abbrev Connection := Nat

/-- Opaque tag identifying the semantic kind of a protocol message. -/
abbrev MessageType := Nat

/-- The generic test-message tag `TestMsg` (defined among the message
constants of the protocol package, outside the embedded source file; its
numeric value is irrelevant to every claim, only its identity is used). -/
def TestMsg : MessageType := 5

/-- `type Encoding int` with its three declared constants. -/
inductive Encoding where
  | Unknown
  | JSON
  | TLV
deriving DecidableEq, Repr

/-- The two concrete messager variants, each owning a connection reference:
`jsonMessager{conn}` and `tlvMessager{conn}`. -/
inductive Messager where
  | jsonMessager (conn : Connection)
  | tlvMessager (conn : Connection)
deriving DecidableEq, Repr

/-- `func (e Encoding) Messager(conn Connection) Messager`: returns `nil`
for `Unknown` (and for out-of-range values, unrepresentable here), else the
matching variant. `none` models the Go `nil` interface. -/
def Encoding.Messager (e : Encoding) (conn : Connection) : Option Messager :=
  match e with
  | .Unknown => none
  | .JSON => some (.jsonMessager conn)
  | .TLV => some (.tlvMessager conn)

/-- `func (jm *jsonMessager) Encoding() Encoding` and
`func (tm *tlvMessager) Encoding() Encoding`. -/
def Messager.encoding : Messager → Encoding
  | .jsonMessager _ => .JSON
  | .tlvMessager _ => .TLV

/-- A call into one of the two external framing codecs, with its arguments
(the message tag and the payload string handed to the codec). -/
inductive CodecCall where
  | sendJSONMessage (kind : MessageType) (msg : String)
  | writeTLVMessage (kind : MessageType) (msg : String)
deriving DecidableEq, Repr

/-- The payload string handed to the codec. -/
def CodecCall.payload : CodecCall → String
  | .sendJSONMessage _ msg => msg
  | .writeTLVMessage _ msg => msg

/-- Whether the call goes through the textual JSON-message codec. -/
def CodecCall.isJSONCodec : CodecCall → Bool
  | .sendJSONMessage _ _ => true
  | .writeTLVMessage _ _ => false

/-- `strconv.FormatInt(n, 10)`: decimal representation, `-` sign for
negative values; `Int.toString` produces exactly this form. -/
def formatInt10 (n : Int) : String := toString n

/-- `type s2cResult struct` with its three string fields, in declared order. -/
structure s2cResult where
  ThroughputValue : String
  UnsentDataAmount : String
  TotalSentByte : String
deriving DecidableEq, Repr

/-- `func (r *s2cResult) String() string`, i.e. `json.Marshal(r)`: the JSON
object text with the three fields in declared order. The field values are
always `strconv.FormatInt` outputs (digits and `-` only), on which the JSON
string escaping of Go is the identity, so plain quoting is faithful here. -/
def s2cResult.render (r : s2cResult) : String :=
  "\x7b\"ThroughputValue\":\"" ++ r.ThroughputValue ++
    "\",\"UnsentDataAmount\":\"" ++ r.UnsentDataAmount ++
    "\",\"TotalSentByte\":\"" ++ r.TotalSentByte ++ "\"\x7d"

/-- `func (jm *jsonMessager) SendMessage(kind, contents)`: delegates to
`SendJSONMessage(kind, string(contents), jm.conn)`. -/
def jsonSendMessage (kind : MessageType) (contents : String) : CodecCall :=
  .sendJSONMessage kind contents

/-- `func (jm *jsonMessager) SendS2CResults(throughputKbps, unsentBytes,
totalSentBytes)`: builds the `s2cResult` record from the three
`strconv.FormatInt` strings and hands `r.String()` to
`WriteTLVMessage(jm.conn, TestMsg, ...)` — the binary codec, as written at
line 88 of the source. -/
def jsonSendS2CResults (throughputKbps unsentBytes totalSentBytes : Int) : CodecCall :=
  let r : s2cResult :=
    { ThroughputValue := formatInt10 throughputKbps
      UnsentDataAmount := formatInt10 unsentBytes
      TotalSentByte := formatInt10 totalSentBytes }
  .writeTLVMessage TestMsg r.render

/-- `func (tm *tlvMessager) SendMessage(kind, contents)`: delegates to
`WriteTLVMessage(tm.conn, kind, string(contents))`. -/
def tlvSendMessage (kind : MessageType) (contents : String) : CodecCall :=
  .writeTLVMessage kind contents

/-- `func (tm *tlvMessager) SendS2CResults(...)`: formats
`fmt.Sprintf("%d %d %d", ...)` and hands it to `WriteTLVMessage` with
`TestMsg`. -/
def tlvSendS2CResults (throughputKbps unsentBytes totalSentBytes : Int) : CodecCall :=
  .writeTLVMessage TestMsg
    (formatInt10 throughputKbps ++ " " ++ formatInt10 unsentBytes ++ " " ++
      formatInt10 totalSentBytes)

/-- A Go `error` value: either one constructed by `errors.New` inside this
package, or an opaque error produced by the external codec / transport. -/
inductive GoError where
  | errorNew (msg : String)
  | external (tag : Nat)
deriving DecidableEq, Repr

/-- The message value returned by `ReceiveJSONMessage` (its `Msg` string
field is all this package reads). -/
structure JSONMessage where
  Msg : String
deriving DecidableEq, Repr

/-- `func (jm *jsonMessager) ReceiveMessage(kind)`: a pure function of the
`(msg, err)` pair returned by the underlying `ReceiveJSONMessage` call.
If `msg == nil`: a fresh error when `err == nil`, otherwise `err` unchanged;
else `([]byte(msg.Msg), err)`. -/
def jsonReceiveMessage (underlying : Option JSONMessage × Option GoError) :
    Option String × Option GoError :=
  match underlying with
  | (none, none) => (none, some (.errorNew "empty message received without error"))
  | (none, some e) => (none, some e)
  | (some m, e) => (some m.Msg, e)

/-- The eleven integer kinds of the Go `reflect` package. -/
inductive IntKind where
  | int | int8 | int16 | int32 | int64
  | uint | uint8 | uint16 | uint32 | uint64 | uintptr
deriving DecidableEq, Repr

/-- The kinds enumerated in the integral `case` of `SendMetrics`:
`Int, Int8, Int16, Int32, Int64, Uint8, Uint16, Uint32, Uint64`.
`Uint` and `Uintptr` are absent from that list, so values of those kinds
fall through to the `default` branch. -/
def IntKind.listed : IntKind → Bool
  | .uint => false
  | .uintptr => false
  | _ => true

/-- A Go value as seen by the reflective walk in `SendMetrics`: an integer
of some kind, a string, a struct (with its ordered field list, and the
rendering of its `String()` method when its type implements `fmt.Stringer`
with a value receiver set), a non-nil pointer, or a value of any other kind
(bool, float, slice, map, ...), identified only by its kind name since the
walker never reads such a value. -/
inductive GoValue where
  | intV (k : IntKind) (n : Int)
  | stringV (s : String)
  | structV (stringer : Option String) (fields : List (String × GoValue))
  | ptrV (p : GoValue)
  | otherV (kindName : String)

/-- The pointer-stripping loop at the top of `SendMetrics`:
`for t.Kind() == reflect.Ptr` do `v = v.Elem()`. -/
def derefAll : GoValue → GoValue
  | .ptrV p => derefAll p
  | v => v

/-- The field loop of `SendMetrics`, as a pure state-passing function.
`sendErr k` is the result of the `k`-th `m.SendMessage` call of the whole
run (`none` = success), modelling the external messager; the output is the
list of message payloads handed to `SendMessage` (each tagged `TestMsg` in
the source), the returned `error`, and the next call index. Each `case` of
the Go `switch` on `t.Field(i).Type.Kind()` appears in order; the nested
recursive call `SendMetrics(v.Field(i).Interface(), m, prefix+name+".")`
is inlined as the walk of the fields of the nested struct, which is what it
reduces to since a `reflect.Struct` field is not a pointer. -/
def sendFields (sendErr : Nat → Option GoError) :
    List (String × GoValue) → String → Nat → List String × Option GoError × Nat
  | [], _, k => ([], none, k)
  | (name, val) :: rest, pre, k =>
    match val with
    | .intV ik n =>
      if ik.listed then
        let msg := pre ++ name ++ ": " ++ toString n ++ "\n"
        match sendErr k with
        | some e => ([msg], some e, k + 1)
        | none =>
          let r := sendFields sendErr rest pre (k + 1)
          (msg :: r.1, r.2)
      else
        sendFields sendErr rest pre k
    | .stringV s =>
      let msg := pre ++ name ++ ": " ++ s ++ "\n"
      match sendErr k with
      | some e => ([msg], some e, k + 1)
      | none =>
        let r := sendFields sendErr rest pre (k + 1)
        (msg :: r.1, r.2)
    | .structV (some rendering) _ =>
      let msg := pre ++ name ++ ": " ++ rendering ++ "\n"
      match sendErr k with
      | some e => ([msg], some e, k + 1)
      | none =>
        let r := sendFields sendErr rest pre (k + 1)
        (msg :: r.1, r.2)
    | .structV none fields =>
      let ri := sendFields sendErr fields (pre ++ name ++ ".") k
      match ri.2.1 with
      | some e => (ri.1, some e, ri.2.2)
      | none =>
        let r := sendFields sendErr rest pre ri.2.2
        (ri.1 ++ r.1, r.2)
    | .ptrV _ => sendFields sendErr rest pre k
    | .otherV _ => sendFields sendErr rest pre k

/-- `func SendMetrics(metrics, m, prefix) error`: strip pointers, then walk
the fields. A non-struct argument after pointer stripping makes
`v.NumField()` panic in Go; that is modelled as `none`. -/
def SendMetrics (sendErr : Nat → Option GoError) (metrics : GoValue)
    (pre : String) (k : Nat) : Option (List String × Option GoError × Nat) :=
  match derefAll metrics with
  | .structV _ fields => some (sendFields sendErr fields pre k)
  | _ => none

/-- The oracle of a run in which every `SendMessage` call succeeds. -/
def allSendsOk : Nat → Option GoError := fun _ => none

/-- `n` layers of pointer indirection around a value: `ptrChain n v` models
the Go argument obtained from `v` by taking its address `n` times. -/
def ptrChain : Nat → GoValue → GoValue
  | 0, v => v
  | n + 1, v => .ptrV (ptrChain n v)

/-! ## Helper lemmas -/

/-- Run invariant of the field walk: the call counter advances by exactly
one per message handed to `SendMessage`; when the walk returns an error,
that error is the response of the messager to the last attempted call and
every earlier call of the run succeeded; when the walk returns success,
every call of the run succeeded. -/
theorem sendFields_invariant (sendErr : Nat → Option GoError)
    (l : List (String × GoValue)) (pre : String) (k : Nat) :
    (sendFields sendErr l pre k).2.2 = k + (sendFields sendErr l pre k).1.length ∧
      (∀ e, (sendFields sendErr l pre k).2.1 = some e →
        sendErr ((sendFields sendErr l pre k).2.2 - 1) = some e ∧
          ∀ i, k ≤ i → i + 1 < (sendFields sendErr l pre k).2.2 → sendErr i = none) ∧
      ((sendFields sendErr l pre k).2.1 = none →
        ∀ i, k ≤ i → i < (sendFields sendErr l pre k).2.2 → sendErr i = none) := by
  induction l, pre, k using sendFields.induct sendErr with
  | case1 pre k =>
      have key : sendFields sendErr [] pre k = ([], none, k) := by simp [sendFields]
      rw [key]
      refine ⟨by simp, fun e he => by simp at he, fun _ i h1 h2 => ?_⟩
      simp only at h2
      exact absurd h1 (by omega)
  | case2 name rest pre k ik n hlist e herr =>
      have key : sendFields sendErr ((name, GoValue.intV ik n) :: rest) pre k =
          ([pre ++ name ++ ": " ++ toString n ++ "\n"], some e, k + 1) := by
        simp [sendFields, hlist, herr]
      rw [key]
      refine ⟨by simp, fun e2 he => ?_, fun hn => by simp at hn⟩
      simp only [Option.some.injEq] at he
      subst he
      refine ⟨by simpa using herr, fun i h1 h2 => ?_⟩
      simp only at h2
      exact absurd h1 (by omega)
  | case3 name rest pre k ik n hlist herr ih =>
      have key : sendFields sendErr ((name, GoValue.intV ik n) :: rest) pre k =
          ((pre ++ name ++ ": " ++ toString n ++ "\n") ::
              (sendFields sendErr rest pre (k + 1)).1,
            (sendFields sendErr rest pre (k + 1)).2) := by
        simp [sendFields, hlist, herr]
      rw [key]
      obtain ⟨ih1, ih2, ih3⟩ := ih
      refine ⟨by simp; omega, fun e he => ?_, fun hn i h1 h2 => ?_⟩
      · obtain ⟨ha, hb⟩ := ih2 e he
        refine ⟨ha, fun i h1 h2 => ?_⟩
        rcases eq_or_lt_of_le h1 with rfl | h
        · exact herr
        · exact hb i h (by simpa using h2)
      · rcases eq_or_lt_of_le h1 with rfl | h
        · exact herr
        · exact ih3 (by simpa using hn) i h (by simpa using h2)
  | case4 name rest pre k ik n hlist ih =>
      simpa [sendFields, hlist] using ih
  | case5 name rest pre k s e herr =>
      have key : sendFields sendErr ((name, GoValue.stringV s) :: rest) pre k =
          ([pre ++ name ++ ": " ++ s ++ "\n"], some e, k + 1) := by
        simp [sendFields, herr]
      rw [key]
      refine ⟨by simp, fun e2 he => ?_, fun hn => by simp at hn⟩
      simp only [Option.some.injEq] at he
      subst he
      refine ⟨by simpa using herr, fun i h1 h2 => ?_⟩
      simp only at h2
      exact absurd h1 (by omega)
  | case6 name rest pre k s herr ih =>
      have key : sendFields sendErr ((name, GoValue.stringV s) :: rest) pre k =
          ((pre ++ name ++ ": " ++ s ++ "\n") ::
              (sendFields sendErr rest pre (k + 1)).1,
            (sendFields sendErr rest pre (k + 1)).2) := by
        simp [sendFields, herr]
      rw [key]
      obtain ⟨ih1, ih2, ih3⟩ := ih
      refine ⟨by simp; omega, fun e he => ?_, fun hn i h1 h2 => ?_⟩
      · obtain ⟨ha, hb⟩ := ih2 e he
        refine ⟨ha, fun i h1 h2 => ?_⟩
        rcases eq_or_lt_of_le h1 with rfl | h
        · exact herr
        · exact hb i h (by simpa using h2)
      · rcases eq_or_lt_of_le h1 with rfl | h
        · exact herr
        · exact ih3 (by simpa using hn) i h (by simpa using h2)
  | case7 name rest pre k rendering fields e herr =>
      have key : sendFields sendErr
          ((name, GoValue.structV (some rendering) fields) :: rest) pre k =
          ([pre ++ name ++ ": " ++ rendering ++ "\n"], some e, k + 1) := by
        simp [sendFields, herr]
      rw [key]
      refine ⟨by simp, fun e2 he => ?_, fun hn => by simp at hn⟩
      simp only [Option.some.injEq] at he
      subst he
      refine ⟨by simpa using herr, fun i h1 h2 => ?_⟩
      simp only at h2
      exact absurd h1 (by omega)
  | case8 name rest pre k rendering fields herr ih =>
      have key : sendFields sendErr
          ((name, GoValue.structV (some rendering) fields) :: rest) pre k =
          ((pre ++ name ++ ": " ++ rendering ++ "\n") ::
              (sendFields sendErr rest pre (k + 1)).1,
            (sendFields sendErr rest pre (k + 1)).2) := by
        simp [sendFields, herr]
      rw [key]
      obtain ⟨ih1, ih2, ih3⟩ := ih
      refine ⟨by simp; omega, fun e he => ?_, fun hn i h1 h2 => ?_⟩
      · obtain ⟨ha, hb⟩ := ih2 e he
        refine ⟨ha, fun i h1 h2 => ?_⟩
        rcases eq_or_lt_of_le h1 with rfl | h
        · exact herr
        · exact hb i h (by simpa using h2)
      · rcases eq_or_lt_of_le h1 with rfl | h
        · exact herr
        · exact ih3 (by simpa using hn) i h (by simpa using h2)
  | case9 name rest pre k fields ri e herr ihf =>
      have herr2 : (sendFields sendErr fields (pre ++ name ++ ".") k).2.1 = some e := herr
      have key : sendFields sendErr ((name, GoValue.structV none fields) :: rest) pre k =
          ((sendFields sendErr fields (pre ++ name ++ ".") k).1, some e,
            (sendFields sendErr fields (pre ++ name ++ ".") k).2.2) := by
        simp [sendFields, herr2]
      rw [key]
      obtain ⟨ih1, ih2, ih3⟩ := ihf
      refine ⟨by simpa using ih1, fun e2 he => ?_, fun hn => by simp at hn⟩
      simp only [Option.some.injEq] at he
      subst he
      exact ih2 e herr2
  | case10 name rest pre k fields ri hnone ihf ihr =>
      have hn2 : (sendFields sendErr fields (pre ++ name ++ ".") k).2.1 = none := hnone
      unfold ri at ihr
      have key : sendFields sendErr ((name, GoValue.structV none fields) :: rest) pre k =
          ((sendFields sendErr fields (pre ++ name ++ ".") k).1 ++
              (sendFields sendErr rest pre
                ((sendFields sendErr fields (pre ++ name ++ ".") k).2.2)).1,
            (sendFields sendErr rest pre
                ((sendFields sendErr fields (pre ++ name ++ ".") k).2.2)).2) := by
        simp [sendFields, hn2]
      rw [key]
      obtain ⟨if1, if2, if3⟩ := ihf
      obtain ⟨ir1, ir2, ir3⟩ := ihr
      refine ⟨by simp; omega, fun e he => ?_, fun hn i h1 h2 => ?_⟩
      · obtain ⟨ha, hb⟩ := ir2 e he
        refine ⟨ha, fun i h1 h2 => ?_⟩
        by_cases hc : i < (sendFields sendErr fields (pre ++ name ++ ".") k).2.2
        · exact if3 hn2 i h1 hc
        · exact hb i (by omega) (by simpa using h2)
      · by_cases hc : i < (sendFields sendErr fields (pre ++ name ++ ".") k).2.2
        · exact if3 hn2 i h1 hc
        · exact ir3 (by simpa using hn) i (by omega) (by simpa using h2)
  | case11 name rest pre k p ih =>
      simpa [sendFields] using ih
  | case12 name rest pre k kindName ih =>
      simpa [sendFields] using ih

/-- A run in which every send succeeds never returns an error. -/
theorem sendFields_ok_no_error (l : List (String × GoValue)) (pre : String) (k : Nat) :
    (sendFields allSendsOk l pre k).2.1 = none := by
  cases h : (sendFields allSendsOk l pre k).2.1 with
  | none => rfl
  | some e =>
      have hc := ((sendFields_invariant allSendsOk l pre k).2.1 e h).1
      simp [allSendsOk] at hc

/-- The pointer-stripping loop erases any chain of `ptrV` layers. -/
theorem derefAll_ptrChain (n : Nat) (v : GoValue) :
    derefAll (ptrChain n v) = derefAll v := by
  induction n with
  | zero => rfl
  | succ n ih =>
      rw [ptrChain]
      rw [show derefAll (GoValue.ptrV (ptrChain n v)) = derefAll (ptrChain n v) from by
        simp [derefAll]]
      exact ih

/-! ## Claim theorems -/

/-- Claim C1. The claim states that both send operations of the textual
(JSON) variant delegate to the JSON-message codec and never to the binary
TLV codec. The code contradicts this: `SendMessage` does delegate to
`SendJSONMessage` (first conjunct), but `SendS2CResults` of the textual
variant hands its JSON-rendered record to `WriteTLVMessage` — the binary
TLV codec (second and third conjuncts evaluate it at the inputs
1000, 0, 125000). This contradicts the doc comment of `jsonMessager`
("all the methods for sending JSON-format NDT messages") and the spec, so
the line is a slip in the code rather than intent. -/
theorem C1_textual_s2c_uses_binary_codec :
    (∀ (kind : MessageType) (contents : String),
        (jsonSendMessage kind contents).isJSONCodec = true) ∧
      (jsonSendS2CResults 1000 0 125000).isJSONCodec = false ∧
      jsonSendS2CResults 1000 0 125000 =
        .writeTLVMessage TestMsg
          "\x7b\"ThroughputValue\":\"1000\",\"UnsentDataAmount\":\"0\",\"TotalSentByte\":\"125000\"\x7d" :=
  ⟨fun _ _ => rfl, rfl, rfl⟩

/-- Claim C3. `sendS2CResults(1000, 0, 125000)` produces, on the textual
variant, the JSON-object payload with the three decimal-string fields
`ThroughputValue`, `UnsentDataAmount`, `TotalSentByte` in declared order,
and on the binary variant the single payload `"1000 0 125000"`; and for
every triple of `int64` inputs the two payloads follow exactly these two
shapes, with the numbers rendered by `strconv.FormatInt(_, 10)`. -/
theorem C3_s2c_payload_shapes :
    (jsonSendS2CResults 1000 0 125000).payload =
        "\x7b\"ThroughputValue\":\"1000\",\"UnsentDataAmount\":\"0\",\"TotalSentByte\":\"125000\"\x7d" ∧
      (tlvSendS2CResults 1000 0 125000).payload = "1000 0 125000" ∧
      ∀ t u s : Int,
        (jsonSendS2CResults t u s).payload =
            "\x7b\"ThroughputValue\":\"" ++ formatInt10 t ++
              "\",\"UnsentDataAmount\":\"" ++ formatInt10 u ++
              "\",\"TotalSentByte\":\"" ++ formatInt10 s ++ "\"\x7d" ∧
          (tlvSendS2CResults t u s).payload =
            formatInt10 t ++ " " ++ formatInt10 u ++ " " ++ formatInt10 s :=
  ⟨rfl, rfl, fun _ _ _ => ⟨rfl, rfl⟩⟩

/-- Claim C4. `ReceiveMessage` of the textual variant, when the underlying
`ReceiveJSONMessage` returns no message and no error, itself returns the
distinct non-nil error "empty message received without error"; and when the
underlying read returns no message together with a non-nil error, that
error is propagated unchanged. -/
theorem C4_receive_empty_is_error :
    jsonReceiveMessage (none, none) =
        (none, some (.errorNew "empty message received without error")) ∧
      (jsonReceiveMessage (none, none)).2 ≠ none ∧
      ∀ e : GoError, jsonReceiveMessage (none, some e) = (none, some e) :=
  ⟨rfl, by simp [jsonReceiveMessage], fun _ => rfl⟩

/-- Claim C5. For each of the two specified encodings (`JSON`, `TLV`,
i.e. every value other than `Unknown`), the factory `Encoding.Messager`
returns a non-nil messager whose `Encoding()` method returns exactly the
requested value; for `Unknown` it returns nil. -/
theorem C5_messagerFor (conn : Connection) (e : Encoding) (h : e ≠ .Unknown) :
    (∃ m, Encoding.Messager e conn = some m ∧ m.encoding = e) ∧
      Encoding.Messager .Unknown conn = none := by
  cases e with
  | Unknown => exact absurd rfl h
  | JSON => exact ⟨⟨_, rfl, rfl⟩, rfl⟩
  | TLV => exact ⟨⟨_, rfl, rfl⟩, rfl⟩

/-- Witness for claim C5 at both non-`Unknown` encodings on connection 0. -/
theorem C5_messagerFor_witness :
    ((∃ m, Encoding.Messager .JSON 0 = some m ∧ m.encoding = .JSON) ∧
        Encoding.Messager .Unknown 0 = none) ∧
      ((∃ m, Encoding.Messager .TLV 0 = some m ∧ m.encoding = .TLV) ∧
        Encoding.Messager .Unknown 0 = none) :=
  ⟨C5_messagerFor 0 .JSON (by decide), C5_messagerFor 0 .TLV (by decide)⟩

/-- Counterexample to claim C2 as stated. `uint` is an unsigned integer
kind, but it is absent from the `case` list of `SendMetrics`, so a record
whose single field `U` has kind `uint` and value 5 produces the empty
message trace instead of the one message `"U: 5\n"` the claim requires:
an integral field IS skipped. -/
theorem C2_counterexample :
    SendMetrics allSendsOk (.structV none [("U", .intV .uint 5)]) "" 0 =
      some ([], none, 0) := by
  simp [SendMetrics, derefAll, sendFields, IntKind.listed]

/-- Claim C2 as amended. For every record field whose kind is one of the
nine kinds enumerated in the `case` list (`int`, `int8`, `int16`, `int32`,
`int64`, `uint8`, `uint16`, `uint32`, `uint64`), `SendMetrics` sends
exactly one message formatted as the prefix, the field name, ": ", the
decimal value and a newline, then continues with the remaining fields;
a field of the remaining integer kinds (`uint`, `uintptr`) falls to the
`default` branch and is skipped without a message. -/
theorem C2_integral_fields (name : String) (rest : List (String × GoValue))
    (pre : String) (k : Nat) (ik : IntKind) (n : Int) :
    (ik.listed = true →
      sendFields allSendsOk ((name, .intV ik n) :: rest) pre k =
        ((pre ++ name ++ ": " ++ toString n ++ "\n") ::
            (sendFields allSendsOk rest pre (k + 1)).1,
          (sendFields allSendsOk rest pre (k + 1)).2)) ∧
    (ik.listed = false →
      sendFields allSendsOk ((name, .intV ik n) :: rest) pre k =
        sendFields allSendsOk rest pre k) := by
  constructor
  · intro h
    simp [sendFields, h, allSendsOk]
  · intro h
    simp [sendFields, h]

/-- Witness for the amended claim C2: a handled `int64` field sends its one
formatted message, an unhandled `uint` field sends nothing. -/
theorem C2_integral_fields_witness :
    sendFields allSendsOk [("A", .intV .int64 7)] "" 0 = (["A: 7\n"], none, 1) ∧
      sendFields allSendsOk [("U", .intV .uint 7)] "" 0 = ([], none, 0) := by
  constructor
  · rw [(C2_integral_fields "A" [] "" 0 .int64 7).1 (by decide)]
    simp [sendFields]
    rfl
  · rw [(C2_integral_fields "U" [] "" 0 .uint 7).2 (by decide)]
    simp [sendFields]

/-- Claim C6. `SendMetrics` on the flat record with fields `A = 5` (kind
`int`) and `B = "x"` and empty prefix emits exactly the two messages
`"A: 5\n"` then `"B: x\n"` in declared field order; and in general the
message trace of a field list is the trace of its first field followed by
the trace of the remaining fields, so declared order fixes wire order. -/
theorem C6_declared_order :
    SendMetrics allSendsOk
        (.structV none [("A", .intV .int 5), ("B", .stringV "x")]) "" 0 =
      some (["A: 5\n", "B: x\n"], none, 2) ∧
    ∀ (f : String × GoValue) (rest : List (String × GoValue)) (pre : String) (k : Nat),
      (sendFields allSendsOk (f :: rest) pre k).1 =
        (sendFields allSendsOk [f] pre k).1 ++
          (sendFields allSendsOk rest pre
            ((sendFields allSendsOk [f] pre k).2.2)).1 := by
  constructor
  · simp [SendMetrics, derefAll, sendFields, allSendsOk, IntKind.listed]
    rfl
  · rintro ⟨name, val⟩ rest pre k
    cases val with
    | intV ik n =>
        by_cases h : ik.listed
        · simp [sendFields, allSendsOk, h]
        · simp [sendFields, allSendsOk, h]
    | stringV s => simp [sendFields, allSendsOk]
    | structV st fields =>
        cases st with
        | some rendering => simp [sendFields, allSendsOk]
        | none =>
            have h := sendFields_ok_no_error fields (pre ++ name ++ ".") k
            simp [sendFields, allSendsOk, h]
    | ptrV p => simp [sendFields]
    | otherV kn => simp [sendFields]

/-- Claim C7. On a record with one nested sub-record field `Inner`:
when the nested type offers a canonical string rendering (`fmt.Stringer`),
`SendMetrics` emits the single line `"Inner: <rendering>\n"`; otherwise it
recurses with the extended prefix `"Inner."`, emitting `"Inner.C: 1\n"` for
the nested field `C = 1`. The last two conjuncts state the two behaviours
for arbitrary names, renderings, nested fields and prefixes. -/
theorem C7_nested_record :
    SendMetrics allSendsOk
        (.structV none [("Inner", .structV (some "canonical") [("C", .intV .int 1)])]) "" 0 =
      some (["Inner: canonical\n"], none, 1) ∧
    SendMetrics allSendsOk
        (.structV none [("Inner", .structV none [("C", .intV .int 1)])]) "" 0 =
      some (["Inner.C: 1\n"], none, 1) ∧
    (∀ (name rendering : String) (fields rest : List (String × GoValue))
        (pre : String) (k : Nat),
      sendFields allSendsOk ((name, .structV (some rendering) fields) :: rest) pre k =
        ((pre ++ name ++ ": " ++ rendering ++ "\n") ::
            (sendFields allSendsOk rest pre (k + 1)).1,
          (sendFields allSendsOk rest pre (k + 1)).2)) ∧
    ∀ (name : String) (fields rest : List (String × GoValue)) (pre : String) (k : Nat),
      sendFields allSendsOk ((name, .structV none fields) :: rest) pre k =
        ((sendFields allSendsOk fields (pre ++ name ++ ".") k).1 ++
            (sendFields allSendsOk rest pre
              ((sendFields allSendsOk fields (pre ++ name ++ ".") k).2.2)).1,
          (sendFields allSendsOk rest pre
              ((sendFields allSendsOk fields (pre ++ name ++ ".") k).2.2)).2) := by
  refine ⟨?_, ?_, ?_, ?_⟩
  · simp [SendMetrics, derefAll, sendFields, allSendsOk]
  · simp [SendMetrics, derefAll, sendFields, allSendsOk, IntKind.listed]
    rfl
  · intro name rendering fields rest pre k
    simp [sendFields, allSendsOk]
  · intro name fields rest pre k
    have h := sendFields_ok_no_error fields (pre ++ name ++ ".") k
    simp [sendFields, h]

/-- Claim C8. Whenever a `SendMetrics` run returns an error, that error is
exactly the response of the messager to the last `SendMessage` call that
was attempted (returned unchanged), every earlier call of the run
succeeded, and the number of attempted calls equals the number of messages
in the trace — so no message for any later field, at any nesting depth, is
attempted after the failing one. Quantifying over every oracle `sendErr`
makes this a fail-fast statement: were any send attempted after the first
failing one, an oracle failing at two indices would falsify it. -/
theorem C8_fail_fast (sendErr : Nat → Option GoError) (metrics : GoValue)
    (pre : String) (k : Nat) (tr : List String) (e : GoError) (k2 : Nat)
    (h : SendMetrics sendErr metrics pre k = some (tr, some e, k2)) :
    k2 = k + tr.length ∧ sendErr (k2 - 1) = some e ∧
      ∀ i, k ≤ i → i + 1 < k2 → sendErr i = none := by
  unfold SendMetrics at h
  cases hd : derefAll metrics with
  | structV st fields =>
      rw [hd] at h
      simp only [Option.some.injEq] at h
      obtain ⟨inv1, inv2, _⟩ := sendFields_invariant sendErr fields pre k
      rw [h] at inv1 inv2
      simp only at inv1 inv2
      exact ⟨inv1, inv2 e rfl⟩
  | intV ik n => rw [hd] at h; simp at h
  | stringV s => rw [hd] at h; simp at h
  | ptrV p => rw [hd] at h; simp at h
  | otherV kn => rw [hd] at h; simp at h

/-- Witness for claim C8: a two-field record whose second send fails with
error `external 7` stops after two attempted calls, and the returned error
is the oracle response at call index 1. -/
theorem C8_fail_fast_witness :
    (2 : Nat) = 0 + (["A: 1\n", "B: 2\n"] : List String).length ∧
      (fun i => if i = 1 then some (GoError.external 7) else none : Nat → Option GoError)
          (2 - 1) = some (GoError.external 7) := by
  have h := C8_fail_fast
      (fun i => if i = 1 then some (GoError.external 7) else none)
      (.structV none [("A", .intV .int 1), ("B", .intV .int 2)]) "" 0
      ["A: 1\n", "B: 2\n"] (GoError.external 7) 2
      (by simp [SendMetrics, derefAll, sendFields, IntKind.listed]; exact ⟨rfl, rfl⟩)
  exact ⟨h.1, h.2.1⟩

/-- Claim C9. A field whose kind the walker does not recognize (any
`otherV` kind such as bool, float or slice, and likewise a pointer-typed
field) produces no message and no error: the walk continues exactly as if
the field were absent, for every oracle; and a run in which every send
succeeds returns success whatever the record contains. -/
theorem C9_unsupported_skipped (sendErr : Nat → Option GoError)
    (name kindName : String) (p : GoValue) (rest : List (String × GoValue))
    (pre : String) (k : Nat) :
    sendFields sendErr ((name, .otherV kindName) :: rest) pre k =
        sendFields sendErr rest pre k ∧
      sendFields sendErr ((name, .ptrV p) :: rest) pre k =
        sendFields sendErr rest pre k ∧
      ∀ (l : List (String × GoValue)) (pre2 : String) (k2 : Nat),
        (sendFields allSendsOk l pre2 k2).2.1 = none :=
  ⟨by simp [sendFields], by simp [sendFields],
    fun l pre2 k2 => sendFields_ok_no_error l pre2 k2⟩

/-- Claim C10. `SendMetrics` is transparent to pointer indirection: for
every value, prefix, call counter and oracle, running it on any chain of
pointers to the value gives exactly the same trace, error and counter as
running it on the value directly, because the pointer-stripping loop runs
before the field walk. -/
theorem C10_pointer_transparency (sendErr : Nat → Option GoError)
    (v : GoValue) (pre : String) (k n : Nat) :
    SendMetrics sendErr (ptrChain n v) pre k = SendMetrics sendErr v pre k := by
  unfold SendMetrics
  rw [derefAll_ptrChain]

end NDT5
